import Mathlib

/-!
Verification of the contentful-semantic-text-toolkit core: a shallow embedding of
`src/utils/vector.ts` (vector mathematics and top-k retrieval) and
`src/search/SemanticSearch.ts` (the similarity index), together with theorems
settling the specification claims about them.

Modelling conventions:
- JavaScript `number` arithmetic is modelled exactly over `ℚ`; `Math.sqrt` is
  modelled by the computable `Rat.sqrt`.  None of the claims proved here depend
  on the numeric value of a square root beyond `sqrt 0 = 0` and `sqrt 1 = 1`,
  which agree with the float semantics.
- The `-Infinity` sentinel used inside `topKSimilar` is modelled as `⊥` in
  `WithBot ℚ`.
- Fallible functions (`throw new SemanticError(...)`) return
  `Except SemanticError α`.
- The embedding engine (`SemanticEngine`, an external collaborator whose calls
  the index delegates to) is abstracted as a function argument
  (`embed` / `embedBatch`) returning `Except SemanticError _`.
- `Array.prototype.sort` with comparator `(a, b) => b[1] - a[1]` (a stable sort,
  descending by score) is modelled by the stable insertion sort `sortDesc`.
-/

namespace Toolkit

/-- Error codes from `src/types.ts` (`SemanticErrorCode`). -/
inductive SemanticErrorCode where
  | MODEL_NOT_LOADED
  | INVALID_INPUT
  | EMBEDDING_FAILED
  | COMPUTATION_FAILED
  | DIMENSION_MISMATCH
deriving DecidableEq, Repr

/-- Structured `details` payloads attached to `SemanticError`s, one constructor
per construction site in `src/utils/vector.ts`. -/
inductive ErrDetail where
  | dimensions : List Nat → ErrDetail
  | length : Nat → ErrDetail
  | k : Int → ErrDetail
  | magnitudes : List ℚ → ErrDetail
deriving DecidableEq, Repr

/-- The `SemanticError` class from `src/types.ts`: a code, a message, and an
optional structured detail payload. -/
structure SemanticError where
  code : SemanticErrorCode
  message : String
  details : Option ErrDetail
deriving DecidableEq, Repr

instance {ε α : Type _} [DecidableEq ε] [DecidableEq α] : DecidableEq (Except ε α) := fun a b =>
  match a, b with
  | .ok x, .ok y => decidable_of_iff (x = y) (by simp)
  | .ok _, .error _ => isFalse (by simp)
  | .error _, .ok _ => isFalse (by simp)
  | .error e, .error f => decidable_of_iff (e = f) (by simp)

/-- Error produced by `validateDimensions`: carries both observed lengths both
in the message and in the `details.dimensions` payload. -/
def dimensionMismatchError (la lb : Nat) : SemanticError :=
  ⟨.DIMENSION_MISMATCH,
    "Embedding dimensions must match. Got " ++ toString la ++ " and " ++ toString lb,
    some (.dimensions [la, lb])⟩

/-- `validateDimensions` from `src/utils/vector.ts`: throws `DIMENSION_MISMATCH`
when the two lengths differ. -/
def validateDimensions (a b : List ℚ) : Except SemanticError Unit :=
  if a.length ≠ b.length then .error (dimensionMismatchError a.length b.length)
  else .ok ()

/-- `validateEmbedding` from `src/utils/vector.ts`: throws `INVALID_INPUT` on an
empty vector.  The source defaults `name` to "embedding"; callers here always
pass it explicitly.  (The JS `!embedding` null-guard has no counterpart: a Lean
`List` is never null.) -/
def validateEmbedding (embedding : List ℚ) (name : String) :
    Except SemanticError Unit :=
  if embedding.length = 0 then
    .error ⟨.INVALID_INPUT, name ++ " must be a non-empty array",
      some (.length embedding.length)⟩
  else .ok ()

/-- Sum of element-wise products — the loop body of `dotProduct`. -/
def dotVal (a b : List ℚ) : ℚ := (List.zipWith (fun x y => x * y) a b).sum

/-- Sum of squares — the loop body of `magnitude`. -/
def sumSq (v : List ℚ) : ℚ := (v.map (fun x => x * x)).sum

/-- The value `Math.sqrt(sum(v_i^2))` computed by `magnitude` on the success
path. -/
def magVal (v : List ℚ) : ℚ := Rat.sqrt (sumSq v)

/-- `dotProduct` from `src/utils/vector.ts`. -/
def dotProduct (a b : List ℚ) : Except SemanticError ℚ := do
  validateEmbedding a "first embedding"
  validateEmbedding b "second embedding"
  validateDimensions a b
  return dotVal a b

/-- `magnitude` from `src/utils/vector.ts`. -/
def magnitude (vector : List ℚ) : Except SemanticError ℚ := do
  validateEmbedding vector "embedding"
  return magVal vector

/-- `cosineSimilarity` from `src/utils/vector.ts`. -/
def cosineSimilarity (a b : List ℚ) : Except SemanticError ℚ := do
  validateEmbedding a "first embedding"
  validateEmbedding b "second embedding"
  validateDimensions a b
  let dot ← dotProduct a b
  let magA ← magnitude a
  let magB ← magnitude b
  if magA = 0 ∨ magB = 0 then
    throw ⟨.COMPUTATION_FAILED,
      "Cannot compute cosine similarity with zero-magnitude vector",
      some (.magnitudes [magA, magB])⟩
  else
    return dot / (magA * magB)

/-- `euclideanDistance` from `src/utils/vector.ts`. -/
def euclideanDistance (a b : List ℚ) : Except SemanticError ℚ := do
  validateEmbedding a "first embedding"
  validateEmbedding b "second embedding"
  validateDimensions a b
  return Rat.sqrt ((List.zipWith (fun x y => (x - y) * (x - y)) a b).sum)

/-- `normalize` from `src/utils/vector.ts`. -/
def normalize (vector : List ℚ) : Except SemanticError (List ℚ) := do
  validateEmbedding vector "embedding"
  let mag ← magnitude vector
  if mag = 0 then
    throw ⟨.COMPUTATION_FAILED, "Cannot normalize zero-magnitude vector", none⟩
  else
    return vector.map (fun v => v / mag)

/-- The inner loop of `centroid`: checks each embedding against the dimension of
the first one and accumulates the element-wise sums (`result[i] += embedding[i]`,
modelled by `zipWith (+)` since every accepted embedding has exactly `dim`
components, like the accumulator). -/
def centroidLoop (dim : Nat) (acc : List ℚ) : List (List ℚ) → Except SemanticError (List ℚ)
  | [] => .ok acc
  | e :: es =>
    if e.length ≠ dim then
      .error ⟨.DIMENSION_MISMATCH, "All embeddings must have same dimensions", none⟩
    else
      centroidLoop dim (List.zipWith (fun x y => x + y) acc e) es

/-- `centroid` from `src/utils/vector.ts`. -/
def centroid (embeddings : List (List ℚ)) : Except SemanticError (List ℚ) :=
  if embeddings.length = 0 then
    .error ⟨.INVALID_INPUT, "Cannot compute centroid of empty array", none⟩
  else
    let dim := embeddings.headI.length
    match centroidLoop dim (List.replicate dim 0) embeddings with
    | .error e => .error e
    | .ok result => .ok (result.map (fun v => v / (embeddings.length : ℚ)))

/-- Scores inside `topKSimilar`: a rational similarity, or `⊥` for the
`-Infinity` sentinel assigned to a candidate whose cosine similarity threw. -/
abbrev Score := WithBot ℚ

/-- Per-candidate scoring in `topKSimilar`: `cosineSimilarity` wrapped in the
`try/catch` that converts any error into the `-Infinity` sentinel. -/
def scoreOf (query c : List ℚ) : Score :=
  match cosineSimilarity query c with
  | .ok s => (s : Score)
  | .error _ => ⊥

/-- `candidates.map((candidate, idx) => [idx, score])` with indices starting at
`i`. -/
def scoreFrom (query : List ℚ) : Nat → List (List ℚ) → List (Nat × Score)
  | _, [] => []
  | i, c :: cs => (i, scoreOf query c) :: scoreFrom query (i + 1) cs

/-- One insertion step of the stable descending-by-score sort modelling
`similarities.sort((a, b) => b[1] - a[1])`: the inserted element `x` (earlier in
the original order than everything in the already-sorted list) moves left past
`y` only when the comparator strictly orders `x` before `y`, i.e. `y.2 < x.2`;
on ties `x` stays first, preserving original order. -/
def insertDesc (x : Nat × Score) : List (Nat × Score) → List (Nat × Score)
  | [] => [x]
  | y :: ys => if x.2 < y.2 then y :: insertDesc x ys else x :: y :: ys

/-- Stable sort, descending by score (the semantics of the JS `sort` call). -/
def sortDesc : List (Nat × Score) → List (Nat × Score)
  | [] => []
  | x :: xs => insertDesc x (sortDesc xs)

/-- `topKSimilar` from `src/utils/vector.ts` (the source defaults `k` to 10;
callers here always pass it).  The two early-returning `if` statements of the
source appear as an `if`/`else if` chain, which is equivalent since each branch
returns. -/
def topKSimilar (query : List ℚ) (candidates : List (List ℚ)) (k : Int) :
    Except SemanticError (List (Nat × Score)) := do
  validateEmbedding query "query"
  if candidates.length = 0 then
    return []
  else if k ≤ 0 then
    throw ⟨.INVALID_INPUT, "k must be positive", some (.k k)⟩
  else
    let similarities := scoreFrom query 0 candidates
    let sorted := sortDesc similarities
    return sorted.take (min k (similarities.length : Int)).toNat

/-- `IndexedItem<T>` from `src/search/SemanticSearch.ts`.  `M` is the type of
the metadata record (`Record<string, unknown>` in the source); the field is
optional there (`metadata?:`), hence `Option M`. -/
structure IndexedItem (T M : Type) where
  item : T
  embedding : List ℚ
  metadata : Option M
deriving DecidableEq

instance {T M : Type} [Inhabited T] : Inhabited (IndexedItem T M) :=
  ⟨⟨default, [], none⟩⟩

/-- The fully-defaulted configuration held by a `SemanticSearch` instance
(`Required<SearchConfig<T>>` in the source). -/
structure SearchConfig (T M : Type) where
  topK : Int
  threshold : ℚ
  textExtractor : T → String
  metadataExtractor : T → M

/-- A caller-supplied `Partial<SearchConfig<T>>` override. -/
structure PartialSearchConfig (T M : Type) where
  topK : Option Int
  threshold : Option ℚ
  textExtractor : Option (T → String)
  metadataExtractor : Option (T → M)

/-- An override with no fields set (`{}` / `undefined` in the source). -/
def noOverride (T M : Type) : PartialSearchConfig T M := ⟨none, none, none, none⟩

/-- The object-spread merge `{ ...this.config, ...overrideConfig }`: a field of
the override wins exactly when it is present. -/
def mergeConfig {T M : Type} (c : SearchConfig T M) (o : PartialSearchConfig T M) :
    SearchConfig T M :=
  { topK := o.topK.getD c.topK
    threshold := o.threshold.getD c.threshold
    textExtractor := o.textExtractor.getD c.textExtractor
    metadataExtractor := o.metadataExtractor.getD c.metadataExtractor }

/-- `SearchResult<T>` from `src/types.ts` (the score keeps the `Score` type it
has inside `search`, where it is drawn from `topKSimilar`'s output). -/
structure SearchResult (T : Type) where
  item : T
  score : Score
  rank : Nat
deriving DecidableEq

/-- The error `search` throws on an empty index. -/
def emptyIndexError : SemanticError :=
  ⟨.INVALID_INPUT, "Index is empty. Call index() before searching.", none⟩

/-- The result-accumulation loop of `search`: walks the `topKSimilar` output,
skips entries whose score is below the threshold (`continue`), and gives each
surviving entry the next rank (`rank++`, starting from 1). -/
def rankLoop {T M : Type} [Inhabited T] (items : List (IndexedItem T M)) (threshold : ℚ) :
    List (Nat × Score) → Nat → List (SearchResult T)
  | [], _ => []
  | p :: rest, rank =>
    if p.2 < (threshold : Score) then rankLoop items threshold rest rank
    else ⟨(items.getD p.1 default).item, p.2, rank⟩ :: rankLoop items threshold rest (rank + 1)

/-- `SemanticSearch.search` from `src/search/SemanticSearch.ts`.  The engine's
`embed` call is passed in as a function; `items` is the current
`this.indexedItems` (search does not mutate it). -/
def search {T M : Type} [Inhabited T] (embed : String → Except SemanticError (List ℚ))
    (cfg : SearchConfig T M) (query : String) (ov : PartialSearchConfig T M)
    (items : List (IndexedItem T M)) : Except SemanticError (List (SearchResult T)) :=
  if items.length = 0 then .error emptyIndexError
  else do
    let config := mergeConfig cfg ov
    let queryResult ← embed query
    let candidateEmbeddings := items.map (fun it => it.embedding)
    let tk ← topKSimilar queryResult candidateEmbeddings config.topK
    return rankLoop items config.threshold tk 1

/-- `SemanticSearch.searchWithFilter`: saves `this.indexedItems`, replaces it by
the metadata-filtered subset, runs `search`, and restores the original in a
`finally` block — so the returned post-state is the original item sequence on
both the normal and the error path.  `emptyMeta` models the `{}` supplied for a
missing metadata record (`item.metadata ?? {}`). -/
def searchWithFilter {T M : Type} [Inhabited T]
    (embed : String → Except SemanticError (List ℚ)) (cfg : SearchConfig T M)
    (query : String) (filter : M → Bool) (emptyMeta : M) (ov : PartialSearchConfig T M)
    (items : List (IndexedItem T M)) :
    Except SemanticError (List (SearchResult T)) × List (IndexedItem T M) :=
  let originalIndex := items
  let filtered := originalIndex.filter (fun it => filter (it.metadata.getD emptyMeta))
  (search embed cfg query ov filtered, originalIndex)

/-- `SemanticSearch.index`: validates the input, clears the stored items first
when `replace` is set, then calls the engine's `embedBatch` on the extracted
texts; on success it appends one `IndexedItem` per input (result `i` pairs with
`items[i]`, modelled by `zip`; the engine contract guarantees equal lengths), on
failure the error propagates with no further state change.  Returns the call's
outcome together with the final `this.indexedItems`. -/
def index {T M : Type} (embedBatch : List String → Except SemanticError (List (List ℚ)))
    (cfg : SearchConfig T M) (items : List T) (replace : Bool)
    (st : List (IndexedItem T M)) :
    Except SemanticError Unit × List (IndexedItem T M) :=
  if items.length = 0 then
    (.error ⟨.INVALID_INPUT, "Items must be a non-empty array", none⟩, st)
  else
    let afterReplace := if replace then [] else st
    match embedBatch (items.map cfg.textExtractor) with
    | .error e => (.error e, afterReplace)
    | .ok results =>
      let newIndexItems := (items.zip results).map
        (fun p => (⟨p.1, p.2, some (cfg.metadataExtractor p.1)⟩ : IndexedItem T M))
      (.ok (), afterReplace ++ newIndexItems)

/-- One stored record of the index, seen as a mutable heap object, for the
aliasing analysis of `exportIndex` / `importIndex`: in JavaScript the
`IndexedItem` objects are references, and `[...xs]` copies the array of
references, not the records. -/
structure StoredRecord where
  embedding : List ℚ
  metaText : String
deriving DecidableEq

instance : Inhabited StoredRecord := ⟨⟨[], ""⟩⟩

/-- A heap of records; a reference is an address into it. -/
abbrev Heap := List StoredRecord

/-- `exportIndex(): return [...this.indexedItems]` — the spread produces a new
array holding the same record references. -/
def exportIndex (indexRefs : List Nat) : List Nat := indexRefs

/-- `importIndex(index): this.indexedItems = [...index]` — likewise a new array
holding the caller's record references. -/
def importIndex (callerRefs : List Nat) : List Nat := callerRefs

/-- Mutation of the `embedding` field of the record at reference `r` (what a
caller can do to a record obtained from `exportIndex`, or to a record it handed
to `importIndex`). -/
def writeEmbedding (h : Heap) (r : Nat) (e : List ℚ) : Heap :=
  h.set r { h.getD r default with embedding := e }

/-- The index's stored items as the caller observes them: each reference
dereferenced through the heap. -/
def storedEmbeddings (h : Heap) (refs : List Nat) : List (List ℚ) :=
  refs.map (fun r => (h.getD r default).embedding)

/-- The error code with which a call failed (`none` when it succeeded). -/
def errorCodeOf {α : Type} : Except SemanticError α → Option SemanticErrorCode
  | .ok _ => none
  | .error e => some e.code

/-- The order `topKSimilar`'s output is claimed to satisfy: strictly descending
by score, with ties broken by the original (strictly smaller) candidate
index. -/
def rankRel (a b : Nat × Score) : Prop :=
  b.2 < a.2 ∨ (a.2 = b.2 ∧ a.1 < b.1)

instance : DecidableRel rankRel := fun _ _ => by unfold rankRel; infer_instance

theorem exceptBind_ok {α β : Type} (a : α) (f : α → Except SemanticError β) :
    (Except.ok a >>= f) = f a := rfl

theorem exceptBind_error {α β : Type} (e : SemanticError) (f : α → Except SemanticError β) :
    ((Except.error e : Except SemanticError α) >>= f) = Except.error e := rfl

theorem validateEmbedding_ok (v : List ℚ) (nm : String) (h : v ≠ []) :
    validateEmbedding v nm = .ok () := by
  simp [validateEmbedding, List.length_eq_zero, h]

theorem validateEmbedding_nil (nm : String) :
    validateEmbedding [] nm =
      .error ⟨.INVALID_INPUT, nm ++ " must be a non-empty array", some (.length 0)⟩ := rfl

theorem validateDimensions_ok {a b : List ℚ} (h : a.length = b.length) :
    validateDimensions a b = .ok () := by
  simp [validateDimensions, h]

theorem validateDimensions_mismatch {a b : List ℚ} (h : a.length ≠ b.length) :
    validateDimensions a b = .error (dimensionMismatchError a.length b.length) := by
  simp [validateDimensions, h]

theorem dotProduct_eq {a b : List ℚ} (ha : a ≠ []) (hb : b ≠ []) (hab : a.length = b.length) :
    dotProduct a b = .ok (dotVal a b) := by
  simp [dotProduct, validateEmbedding_ok _ _ ha, validateEmbedding_ok _ _ hb,
    validateDimensions_ok hab, exceptBind_ok]

theorem magnitude_eq {v : List ℚ} (h : v ≠ []) : magnitude v = .ok (magVal v) := by
  simp [magnitude, validateEmbedding_ok _ _ h, exceptBind_ok]


theorem exceptThrow_eq {α : Type} (e : SemanticError) :
    (throw e : Except SemanticError α) = .error e := rfl

theorem centroidLoop_error {dim : ℕ} {l : List (List ℚ)} (acc : List ℚ)
    (hbad : ∃ e ∈ l, e.length ≠ dim) :
    centroidLoop dim acc l =
      .error ⟨.DIMENSION_MISMATCH, "All embeddings must have same dimensions", none⟩ := by
  induction l generalizing acc with
  | nil => simp at hbad
  | cons e es ih =>
    by_cases he : e.length = dim
    · obtain ⟨f, hf, hfd⟩ := hbad
      rcases List.mem_cons.mp hf with rfl | hf
      · exact absurd he hfd
      · simp [centroidLoop, he, ih _ ⟨f, hf, hfd⟩]
    · simp [centroidLoop, he]

theorem centroidLoop_allZero {l : List (List ℚ)} (hall : ∀ e ∈ l, e.length = 0) :
    centroidLoop 0 [] l = .ok [] := by
  induction l with
  | nil => rfl
  | cons e es ih =>
    have he : e.length = 0 := hall e (List.mem_cons_self e es)
    have : List.zipWith (fun x y => x + y) [] e = [] := by simp
    simp [centroidLoop, he, this, ih (fun f hf => hall f (List.mem_cons_of_mem e hf))]

/-- C3 counterexample input: with a non-empty query, an empty candidate list and
`k = 0`, `topKSimilar` returns `ok []` — it does not raise `InvalidInput`,
because the empty-candidates early return precedes the `k <= 0` check. -/
theorem topKSimilar_kZero_emptyCandidates_cex : topKSimilar [1] [] 0 = .ok [] := rfl

/-- C3 (amended): `topKSimilar`'s validation order is: an empty `query` raises
`InvalidInput` first; otherwise empty `candidates` returns the empty sequence
(whatever `k` is, including `k <= 0`); only otherwise does `k <= 0` raise
`InvalidInput`. -/
theorem topKSimilar_validation (query : List ℚ) (candidates : List (List ℚ)) (k : Int) :
    (query = [] →
      topKSimilar query candidates k =
        .error ⟨.INVALID_INPUT, "query must be a non-empty array", some (.length 0)⟩) ∧
    (query ≠ [] → candidates = [] → topKSimilar query candidates k = .ok []) ∧
    (query ≠ [] → candidates ≠ [] → k ≤ 0 →
      topKSimilar query candidates k =
        .error ⟨.INVALID_INPUT, "k must be positive", some (.k k)⟩) := by
  refine ⟨fun hq => ?_, fun hq hc => ?_, fun hq hc hk => ?_⟩
  · subst hq; rfl
  · subst hc
    simp [topKSimilar, validateEmbedding_ok _ _ hq, exceptBind_ok]
  · have hc0 : candidates.length ≠ 0 := by simpa [List.length_eq_zero] using hc
    simp [topKSimilar, validateEmbedding_ok _ _ hq, exceptBind_ok, hc0, hk, exceptThrow_eq]

/-- C3 witness: at `query = []`, `candidates = [[1]]`, `k = 5` the first branch
of `topKSimilar_validation` applies. -/
theorem topKSimilar_validation_witness :
    topKSimilar [] [[1]] 5 =
      .error ⟨.INVALID_INPUT, "query must be a non-empty array", some (.length 0)⟩ :=
  (topKSimilar_validation [] [[1]] 5).1 rfl

/-- C4 counterexample: `centroid` on mismatched dimensions raises
`DIMENSION_MISMATCH` whose `details` payload is absent — it does not carry the
two observed lengths (`validateDimensions`' payload does, but `centroid` never
calls it). -/
theorem centroid_mismatch_no_details_cex :
    centroid [[1], [1, 2]] =
      .error ⟨.DIMENSION_MISMATCH, "All embeddings must have same dimensions", none⟩ ∧
    (⟨.DIMENSION_MISMATCH, "All embeddings must have same dimensions", none⟩ :
        SemanticError).details = none := ⟨rfl, rfl⟩

/-- C4 (amended): on non-empty vectors of unequal lengths, `dotProduct`,
`cosineSimilarity` and `euclideanDistance` raise `DimensionMismatch` carrying
both observed lengths in the error detail, while `centroid` raises
`DimensionMismatch` with no detail payload at all. -/
theorem dimensionMismatch_details (a b : List ℚ) (embs : List (List ℚ))
    (ha : a ≠ []) (hb : b ≠ []) (hab : a.length ≠ b.length)
    (hbad : ∃ e ∈ embs, e.length ≠ embs.headI.length) :
    dotProduct a b = .error (dimensionMismatchError a.length b.length) ∧
    cosineSimilarity a b = .error (dimensionMismatchError a.length b.length) ∧
    euclideanDistance a b = .error (dimensionMismatchError a.length b.length) ∧
    (dimensionMismatchError a.length b.length).details =
      some (.dimensions [a.length, b.length]) ∧
    centroid embs =
      .error ⟨.DIMENSION_MISMATCH, "All embeddings must have same dimensions", none⟩ := by
  have hembs : embs ≠ [] := by
    rintro rfl
    simp at hbad
  have h0 : embs.length ≠ 0 := by simpa [List.length_eq_zero] using hembs
  refine ⟨?_, ?_, ?_, rfl, ?_⟩
  · simp [dotProduct, validateEmbedding_ok _ _ ha, validateEmbedding_ok _ _ hb,
      validateDimensions_mismatch hab, exceptBind_ok, exceptBind_error]
  · simp [cosineSimilarity, validateEmbedding_ok _ _ ha, validateEmbedding_ok _ _ hb,
      validateDimensions_mismatch hab, exceptBind_ok, exceptBind_error]
  · simp [euclideanDistance, validateEmbedding_ok _ _ ha, validateEmbedding_ok _ _ hb,
      validateDimensions_mismatch hab, exceptBind_ok, exceptBind_error]
  · simp [centroid, h0, centroidLoop_error _ hbad]

/-- C4 witness: at `a = [1]`, `b = [1, 2]`, `embs = [[1], [1, 2]]` every branch
of `dimensionMismatch_details` fires. -/
theorem dimensionMismatch_details_witness :
    dotProduct [1] [1, 2] = .error (dimensionMismatchError 1 2) ∧
    cosineSimilarity [1] [1, 2] = .error (dimensionMismatchError 1 2) ∧
    euclideanDistance [1] [1, 2] = .error (dimensionMismatchError 1 2) ∧
    (dimensionMismatchError 1 2).details = some (.dimensions [1, 2]) ∧
    centroid [[1], [1, 2]] =
      .error ⟨.DIMENSION_MISMATCH, "All embeddings must have same dimensions", none⟩ := by
  have h := dimensionMismatch_details [1] [1, 2] [[1], [1, 2]]
    (by simp) (by simp) (by simp) ⟨[1, 2], by simp, by simp⟩
  simpa using h

/-- C9: in `dotProduct`, `cosineSimilarity` and `euclideanDistance` the
emptiness check (`validateEmbedding`) precedes the length comparison
(`validateDimensions`): whenever either argument is empty the call fails with
`INVALID_INPUT`, never `DIMENSION_MISMATCH`, even if the two lengths differ. -/
theorem emptyVector_invalidInput (a b : List ℚ) (h : a = [] ∨ b = []) :
    errorCodeOf (dotProduct a b) = some .INVALID_INPUT ∧
    errorCodeOf (cosineSimilarity a b) = some .INVALID_INPUT ∧
    errorCodeOf (euclideanDistance a b) = some .INVALID_INPUT := by
  by_cases ha : a = []
  · subst ha
    exact ⟨rfl, rfl, rfl⟩
  · have hb : b = [] := h.resolve_left ha
    subst hb
    refine ⟨?_, ?_, ?_⟩ <;>
      simp [dotProduct, cosineSimilarity, euclideanDistance,
        validateEmbedding_ok _ _ ha, validateEmbedding_nil, exceptBind_ok,
        exceptBind_error, errorCodeOf]

/-- C9 witness: `a = []`, `b = [1, 2]` — the lengths differ (0 vs 2) yet the
error is `INVALID_INPUT`. -/
theorem emptyVector_invalidInput_witness :
    (List.length ([] : List ℚ) ≠ (([1, 2] : List ℚ)).length) ∧
    errorCodeOf (dotProduct [] [1, 2]) = some .INVALID_INPUT ∧
    errorCodeOf (cosineSimilarity [] [1, 2]) = some .INVALID_INPUT ∧
    errorCodeOf (euclideanDistance [] [1, 2]) = some .INVALID_INPUT :=
  ⟨by simp, emptyVector_invalidInput [] [1, 2] (Or.inl rfl)⟩

/-- C10: `centroid` never rejects empty component vectors: on a non-empty list
whose vectors all have length zero it returns the empty vector, with no error,
because the dimension of the first vector (0) is the only per-vector check. -/
theorem centroid_allEmpty (embs : List (List ℚ)) (hne : embs ≠ [])
    (hall : ∀ e ∈ embs, e.length = 0) : centroid embs = .ok [] := by
  have h0 : embs.length ≠ 0 := by simpa [List.length_eq_zero] using hne
  have hdim : embs.headI.length = 0 := by
    cases embs with
    | nil => exact absurd rfl hne
    | cons e es => exact hall e (List.mem_cons_self e es)
  simp [centroid, h0, hdim, centroidLoop_allZero hall]

/-- C10 witness: `centroid [[], []] = ok []` while the pairwise operations all
reject the empty vector. -/
theorem centroid_allEmpty_witness :
    centroid [[], []] = .ok [] ∧
    errorCodeOf (dotProduct [] []) = some .INVALID_INPUT ∧
    errorCodeOf (magnitude []) = some .INVALID_INPUT ∧
    errorCodeOf (cosineSimilarity [] []) = some .INVALID_INPUT :=
  ⟨centroid_allEmpty [[], []] (by simp) (by simp), rfl, rfl, rfl⟩

theorem cosineSimilarity_ok {a b : List ℚ} (ha : a ≠ []) (hb : b ≠ [])
    (hab : a.length = b.length) (hma : magVal a ≠ 0) (hmb : magVal b ≠ 0) :
    cosineSimilarity a b = .ok (dotVal a b / (magVal a * magVal b)) := by
  have hz : ¬(magVal a = 0 ∨ magVal b = 0) := by tauto
  simp [cosineSimilarity, validateEmbedding_ok _ _ ha, validateEmbedding_ok _ _ hb,
    validateDimensions_ok hab, exceptBind_ok, dotProduct_eq ha hb hab,
    magnitude_eq ha, magnitude_eq hb, hz]

theorem cosineSimilarity_zeroMagnitude {a b : List ℚ} (ha : a ≠ []) (hb : b ≠ [])
    (hab : a.length = b.length) (hz : magVal a = 0 ∨ magVal b = 0) :
    cosineSimilarity a b =
      .error ⟨.COMPUTATION_FAILED,
        "Cannot compute cosine similarity with zero-magnitude vector",
        some (.magnitudes [magVal a, magVal b])⟩ := by
  simp [cosineSimilarity, validateEmbedding_ok _ _ ha, validateEmbedding_ok _ _ hb,
    validateDimensions_ok hab, exceptBind_ok, dotProduct_eq ha hb hab,
    magnitude_eq ha, magnitude_eq hb, hz, exceptThrow_eq]

/-- C8: on non-empty equal-length vectors `cosineSimilarity` returns exactly
`dotProduct(a,b) / (magnitude(a) * magnitude(b))`; with either magnitude exactly
zero it fails with `COMPUTATION_FAILED` (returning no value at all, so no NaN
and no clamping); and on unequal lengths it fails with `DIMENSION_MISMATCH`
before any magnitude enters the picture (the error mentions only the two
lengths, whatever the magnitudes are). -/
theorem cosineSimilarity_spec (a b : List ℚ) (ha : a ≠ []) (hb : b ≠ []) :
    (a.length ≠ b.length →
      cosineSimilarity a b = .error (dimensionMismatchError a.length b.length)) ∧
    (a.length = b.length →
      dotProduct a b = .ok (dotVal a b) ∧
      magnitude a = .ok (magVal a) ∧
      magnitude b = .ok (magVal b) ∧
      ((magVal a = 0 ∨ magVal b = 0) →
        cosineSimilarity a b =
          .error ⟨.COMPUTATION_FAILED,
            "Cannot compute cosine similarity with zero-magnitude vector",
            some (.magnitudes [magVal a, magVal b])⟩) ∧
      (magVal a ≠ 0 → magVal b ≠ 0 →
        cosineSimilarity a b = .ok (dotVal a b / (magVal a * magVal b)))) := by
  refine ⟨fun hab => ?_, fun hab => ⟨dotProduct_eq ha hb hab, magnitude_eq ha,
    magnitude_eq hb, fun hz => cosineSimilarity_zeroMagnitude ha hb hab hz,
    fun hma hmb => cosineSimilarity_ok ha hb hab hma hmb⟩⟩
  simp [cosineSimilarity, validateEmbedding_ok _ _ ha, validateEmbedding_ok _ _ hb,
    validateDimensions_mismatch hab, exceptBind_ok, exceptBind_error]

theorem magVal_nil_cons : magVal [(0 : ℚ)] = 0 ∧ magVal [(1 : ℚ)] = 1 := by
  constructor <;>
  · simp only [magVal, sumSq, List.map_cons, List.map_nil, List.sum_cons, List.sum_nil]
    norm_num

/-- C8 witness: at `a = [0]`, `b = [1]` (equal lengths, `magnitude a = 0`) the
zero-magnitude branch fires, and at `a = b = [1]` the quotient branch gives
`1 / (1 * 1) = 1`. -/
theorem cosineSimilarity_spec_witness :
    cosineSimilarity [0] [1] =
      .error ⟨.COMPUTATION_FAILED,
        "Cannot compute cosine similarity with zero-magnitude vector",
        some (.magnitudes [magVal [0], magVal [1]])⟩ ∧
    cosineSimilarity [1] [1] = .ok (dotVal [1] [1] / (magVal [1] * magVal [1])) := by
  have h0 := (cosineSimilarity_spec [0] [1] (by simp) (by simp)).2 (by simp)
  have h1 := (cosineSimilarity_spec [1] [1] (by simp) (by simp)).2 (by simp)
  exact ⟨h0.2.2.2.1 (Or.inl magVal_nil_cons.1),
    h1.2.2.2.2 (by rw [magVal_nil_cons.2]; norm_num) (by rw [magVal_nil_cons.2]; norm_num)⟩

theorem mem_insertDesc {x z : Nat × Score} {l : List (Nat × Score)} :
    z ∈ insertDesc x l ↔ z = x ∨ z ∈ l := by
  induction l with
  | nil => simp [insertDesc]
  | cons y ys ih =>
    by_cases h : x.2 < y.2
    · simp [insertDesc, h, ih]
      tauto
    · simp [insertDesc, h]

theorem length_insertDesc (x : Nat × Score) (l : List (Nat × Score)) :
    (insertDesc x l).length = l.length + 1 := by
  induction l with
  | nil => rfl
  | cons y ys ih =>
    by_cases h : x.2 < y.2 <;> simp [insertDesc, h, ih]

theorem length_sortDesc (l : List (Nat × Score)) : (sortDesc l).length = l.length := by
  induction l with
  | nil => rfl
  | cons x xs ih => simp [sortDesc, length_insertDesc, ih]

theorem insertDesc_pairwise {x : Nat × Score} {l : List (Nat × Score)}
    (hl : l.Pairwise rankRel) (hx : ∀ y ∈ l, x.1 < y.1) :
    (insertDesc x l).Pairwise rankRel := by
  induction l with
  | nil => simp [insertDesc, rankRel]
  | cons y ys ih =>
    rw [List.pairwise_cons] at hl
    obtain ⟨hy, hys⟩ := hl
    by_cases h : x.2 < y.2
    · rw [insertDesc, if_pos h, List.pairwise_cons]
      refine ⟨fun z hz => ?_, ih hys (fun z hz => hx z (List.mem_cons_of_mem y hz))⟩
      rcases mem_insertDesc.mp hz with rfl | hz
      · exact Or.inl h
      · exact hy z hz
    · rw [insertDesc, if_neg h, List.pairwise_cons]
      have hyx : y.2 ≤ x.2 := not_lt.mp h
      refine ⟨fun z hz => ?_, List.pairwise_cons.mpr ⟨hy, hys⟩⟩
      rcases List.mem_cons.mp hz with rfl | hz
      · rcases lt_or_eq_of_le hyx with hlt | heq
        · exact Or.inl hlt
        · exact Or.inr ⟨heq.symm, hx z (List.mem_cons_self z _)⟩
      · have hzy := hy z hz
        have hzx : z.2 ≤ x.2 := by
          rcases hzy with hlt | ⟨heq, _⟩
          · exact le_of_lt (lt_of_lt_of_le hlt hyx)
          · exact heq ▸ hyx
        rcases lt_or_eq_of_le hzx with hlt | heq
        · exact Or.inl hlt
        · exact Or.inr ⟨heq.symm, hx z (List.mem_cons_of_mem y hz)⟩

theorem mem_sortDesc {z : Nat × Score} {l : List (Nat × Score)} :
    z ∈ sortDesc l ↔ z ∈ l := by
  induction l with
  | nil => simp [sortDesc]
  | cons x xs ih => simp [sortDesc, mem_insertDesc, ih]

theorem sortDesc_pairwise {l : List (Nat × Score)}
    (h : l.Pairwise fun a b => a.1 < b.1) : (sortDesc l).Pairwise rankRel := by
  induction l with
  | nil => simp [sortDesc]
  | cons x xs ih =>
    rw [List.pairwise_cons] at h
    exact insertDesc_pairwise (ih h.2) (fun y hy => h.1 y (mem_sortDesc.mp hy))

theorem scoreFrom_length (q : List ℚ) (n : Nat) (cs : List (List ℚ)) :
    (scoreFrom q n cs).length = cs.length := by
  induction cs generalizing n with
  | nil => rfl
  | cons c cs ih => simp [scoreFrom, ih]

theorem mem_scoreFrom {q : List ℚ} {p : Nat × Score} {cs : List (List ℚ)} {n : Nat}
    (h : p ∈ scoreFrom q n cs) :
    n ≤ p.1 ∧ p.1 - n < cs.length ∧ p.2 = scoreOf q (cs.getD (p.1 - n) []) := by
  induction cs generalizing n with
  | nil => simp [scoreFrom] at h
  | cons c cs ih =>
    rcases List.mem_cons.mp h with rfl | h
    · simp
    · obtain ⟨h1, h2, h3⟩ := ih h
      have hn : n + 1 ≤ p.1 := h1
      refine ⟨by omega, by simp; omega, ?_⟩
      have : p.1 - n = (p.1 - (n + 1)) + 1 := by omega
      rw [this, List.getD_cons_succ]
      exact h3

theorem scoreFrom_pairwise (q : List ℚ) (n : Nat) (cs : List (List ℚ)) :
    (scoreFrom q n cs).Pairwise fun a b => a.1 < b.1 := by
  induction cs generalizing n with
  | nil => simp [scoreFrom]
  | cons c cs ih =>
    rw [scoreFrom, List.pairwise_cons]
    exact ⟨fun y hy => lt_of_lt_of_le (Nat.lt_succ_self n) (mem_scoreFrom hy).1, ih (n + 1)⟩

theorem topKSimilar_pos {q : List ℚ} {cs : List (List ℚ)} {k : Int}
    (hq : q ≠ []) (hc : cs ≠ []) (hk : 0 < k) :
    topKSimilar q cs k =
      .ok ((sortDesc (scoreFrom q 0 cs)).take (min k (cs.length : Int)).toNat) := by
  have hc0 : cs.length ≠ 0 := by simpa [List.length_eq_zero] using hc
  have hk0 : ¬ k ≤ 0 := not_le.mpr hk
  simp [topKSimilar, validateEmbedding_ok _ _ hq, exceptBind_ok, hc0, hk0, scoreFrom_length]

theorem rankRel_imp_not_lt {a b : Nat × Score} (h : rankRel a b) : ¬ a.2 < b.2 := by
  rcases h with h | ⟨h, _⟩
  · exact fun hab => absurd (lt_trans hab h) (lt_irrefl _)
  · exact h ▸ lt_irrefl _

/-- C7: on a non-empty query, non-empty candidates and positive `k`,
`topKSimilar` succeeds with exactly `min(k, len(candidates))` entries, ordered
descending by score with equal scores in original candidate order (the sort is
stable), and each entry pairs an in-range original index with that candidate's
cosine-similarity score (`⊥` standing for the `-Infinity` sentinel). -/
theorem topKSimilar_order (query : List ℚ) (candidates : List (List ℚ)) (k : Int)
    (hq : query ≠ []) (hc : candidates ≠ []) (hk : 0 < k) :
    ∃ res, topKSimilar query candidates k = .ok res ∧
      res.length = min k.toNat candidates.length ∧
      res.Pairwise rankRel ∧
      ∀ p ∈ res, p.1 < candidates.length ∧ p.2 = scoreOf query (candidates.getD p.1 []) := by
  refine ⟨_, topKSimilar_pos hq hc hk, ?_, ?_, ?_⟩
  · rw [List.length_take, length_sortDesc, scoreFrom_length]
    have : (min k (candidates.length : Int)).toNat = min k.toNat candidates.length := by
      omega
    rw [this]
    omega
  · exact List.Pairwise.sublist (List.take_sublist _ _)
      (sortDesc_pairwise (scoreFrom_pairwise query 0 candidates))
  · intro p hp
    have hmem : p ∈ scoreFrom query 0 candidates :=
      mem_sortDesc.mp (List.mem_of_mem_take hp)
    obtain ⟨_, h2, h3⟩ := mem_scoreFrom hmem
    rw [Nat.sub_zero] at h2 h3
    exact ⟨h2, h3⟩

/-- C7 witness: `query = [1]`, `candidates = [[1]]`, `k = 3`. -/
theorem topKSimilar_order_witness :
    ([1] : List ℚ) ≠ [] ∧ ([[1]] : List (List ℚ)) ≠ [] ∧ (0 : Int) < 3 ∧
    ∃ res, topKSimilar [1] [[1]] 3 = .ok res ∧
      res.length = min (3 : Int).toNat 1 ∧
      res.Pairwise rankRel ∧
      ∀ p ∈ res, p.1 < 1 ∧ p.2 = scoreOf [1] (([[1]] : List (List ℚ)).getD p.1 []) := by
  refine ⟨by simp, by simp, by norm_num, ?_⟩
  simpa using topKSimilar_order [1] [[1]] 3 (by simp) (by simp) (by norm_num)

theorem enumFrom_pairwise {α : Type _} {R : α → α → Prop} {l : List α}
    (h : l.Pairwise R) (n : Nat) :
    (l.enumFrom n).Pairwise fun a b => a.1 < b.1 ∧ R a.2 b.2 := by
  induction l generalizing n with
  | nil => simp
  | cons x xs ih =>
    rw [List.pairwise_cons] at h
    rw [List.enumFrom_cons, List.pairwise_cons]
    refine ⟨fun y hy => ?_, ih h.2 (n + 1)⟩
    obtain ⟨i, a⟩ := y
    obtain ⟨h1, h2, h3⟩ := List.mem_enumFrom hy
    refine ⟨by omega, h.1 a ?_⟩
    rw [h3]
    exact List.getElem_mem _

theorem rankLoop_eq {T M : Type} [Inhabited T] (items : List (IndexedItem T M)) (t : ℚ)
    (tk : List (Nat × Score)) (r : Nat) :
    rankLoop items t tk r =
      ((tk.filter fun p => !decide (p.2 < (t : Score))).enumFrom r).map
        (fun q => ⟨(items.getD q.2.1 default).item, q.2.2, q.1⟩) := by
  induction tk generalizing r with
  | nil => simp [rankLoop]
  | cons p rest ih =>
    by_cases h : p.2 < (t : Score)
    · simp [rankLoop, h, List.filter_cons, ih]
    · simp [rankLoop, h, List.filter_cons, List.enumFrom_cons, ih]

theorem search_eq_of_ok {T M : Type} [Inhabited T]
    (embed : String → Except SemanticError (List ℚ)) (cfg : SearchConfig T M)
    (query : String) (ov : PartialSearchConfig T M) (items : List (IndexedItem T M))
    (qe : List ℚ) (tk : List (Nat × Score))
    (hne : items ≠ []) (hq : embed query = .ok qe)
    (htk : topKSimilar qe (items.map fun it => it.embedding) (mergeConfig cfg ov).topK = .ok tk) :
    search embed cfg query ov items =
      .ok (rankLoop items (mergeConfig cfg ov).threshold tk 1) := by
  have h0 : items.length ≠ 0 := by simpa [List.length_eq_zero] using hne
  simp [search, h0, hq, htk, exceptBind_ok]

/-- C5: when the embedding call and `topKSimilar` succeed and the latter's score
list is descending, `search` returns exactly the below-threshold-filtered
survivors, in order, with ranks `1, 2, 3, ...` assigned contiguously by
post-filter position (`enumFrom 1`), and the resulting list is descending in
score with strictly increasing ranks — so rank 1 is the best surviving
result. -/
theorem search_threshold_ranking {T M : Type} [Inhabited T]
    (embed : String → Except SemanticError (List ℚ)) (cfg : SearchConfig T M)
    (query : String) (ov : PartialSearchConfig T M) (items : List (IndexedItem T M))
    (qe : List ℚ) (tk : List (Nat × Score))
    (hne : items ≠ []) (hq : embed query = .ok qe)
    (htk : topKSimilar qe (items.map fun it => it.embedding) (mergeConfig cfg ov).topK = .ok tk)
    (hdesc : tk.Pairwise fun a b => ¬ a.2 < b.2) :
    search embed cfg query ov items =
      .ok (((tk.filter fun p =>
          !decide (p.2 < ((mergeConfig cfg ov).threshold : Score))).enumFrom 1).map
        (fun q => ⟨(items.getD q.2.1 default).item, q.2.2, q.1⟩)) ∧
    (((tk.filter fun p =>
          !decide (p.2 < ((mergeConfig cfg ov).threshold : Score))).enumFrom 1).map
        (fun q => (⟨(items.getD q.2.1 default).item, q.2.2, q.1⟩ : SearchResult T))).Pairwise
      (fun x y => ¬ x.score < y.score ∧ x.rank < y.rank) := by
  constructor
  · rw [search_eq_of_ok embed cfg query ov items qe tk hne hq htk, rankLoop_eq]
  · have hfil : (tk.filter fun p =>
        !decide (p.2 < ((mergeConfig cfg ov).threshold : Score))).Pairwise
          (fun a b => ¬ a.2 < b.2) :=
      List.Pairwise.sublist (List.filter_sublist _) hdesc
    have henum := enumFrom_pairwise hfil 1
    rw [List.pairwise_map]
    exact henum.imp (fun hab => ⟨hab.2, hab.1⟩)

theorem cosineSimilarity_one_one : cosineSimilarity [1] [1] = .ok 1 := by
  have hm : magVal [(1 : ℚ)] ≠ 0 := by rw [magVal_nil_cons.2]; norm_num
  rw [cosineSimilarity_ok (by simp) (by simp) rfl hm hm, magVal_nil_cons.2]
  have : dotVal [1] [1] = 1 := by simp [dotVal]
  rw [this]
  norm_num

theorem topKSimilar_one_one : topKSimilar [1] [[1]] 10 = .ok [(0, ((1 : ℚ) : Score))] := by
  rw [topKSimilar_pos (by simp) (by simp) (by norm_num)]
  have hs : scoreFrom [1] 0 [[1]] = [(0, ((1 : ℚ) : Score))] := by
    simp [scoreFrom, scoreOf, cosineSimilarity_one_one]
  rw [hs]
  rfl

/-- C5 witness: one indexed item with embedding `[1]`, query embedding `[1]`,
threshold 0: the sole (above-threshold) result gets rank 1. -/
theorem search_threshold_ranking_witness :
    search (fun _ => .ok [1]) (⟨10, 0, fun _ => "", fun _ => ()⟩ : SearchConfig Nat Unit) "q"
      (noOverride Nat Unit) [⟨7, [1], none⟩] = .ok [⟨7, ((1 : ℚ) : Score), 1⟩] := by
  have h := search_threshold_ranking (fun _ => .ok [1])
    (⟨10, 0, fun _ => "", fun _ => ()⟩ : SearchConfig Nat Unit) "q" (noOverride Nat Unit)
    [⟨7, [1], none⟩] [1] [(0, ((1 : ℚ) : Score))] (by simp) rfl topKSimilar_one_one (by simp)
  rw [h.1]
  rfl

/-- C6: `searchWithFilter` always hands back the original stored item sequence
(the `finally` restoration covers the success and the error path alike), its
result is that of `search` run on the metadata-filtered subset, and when the
predicate matches no stored item that result is exactly the `InvalidInput`
("Index is empty") error an empty index produces. -/
theorem searchWithFilter_spec {T M : Type} [Inhabited T]
    (embed : String → Except SemanticError (List ℚ)) (cfg : SearchConfig T M)
    (query : String) (pred : M → Bool) (emptyMeta : M) (ov : PartialSearchConfig T M)
    (items : List (IndexedItem T M)) :
    (searchWithFilter embed cfg query pred emptyMeta ov items).2 = items ∧
    (searchWithFilter embed cfg query pred emptyMeta ov items).1 =
      search embed cfg query ov
        (items.filter fun it => pred (it.metadata.getD emptyMeta)) ∧
    ((items.filter fun it => pred (it.metadata.getD emptyMeta)) = [] →
      (searchWithFilter embed cfg query pred emptyMeta ov items).1 = .error emptyIndexError ∧
      search embed cfg query ov ([] : List (IndexedItem T M)) = .error emptyIndexError) := by
  refine ⟨rfl, rfl, fun h => ⟨?_, rfl⟩⟩
  show search embed cfg query ov (items.filter fun it => pred (it.metadata.getD emptyMeta)) =
    .error emptyIndexError
  rw [h]
  rfl

/-- C6 witness: a predicate matching nothing on a one-item index — the state is
restored and the result is the empty-index `InvalidInput`. -/
theorem searchWithFilter_spec_witness :
    (searchWithFilter (fun _ => .ok [1])
        (⟨10, 0, fun _ => "", fun _ => ()⟩ : SearchConfig Nat Unit) "q" (fun _ => false) ()
        (noOverride Nat Unit) [⟨7, [1], none⟩]).2 = [⟨7, [1], none⟩] ∧
    (searchWithFilter (fun _ => .ok [1])
        (⟨10, 0, fun _ => "", fun _ => ()⟩ : SearchConfig Nat Unit) "q" (fun _ => false) ()
        (noOverride Nat Unit) [⟨7, [1], none⟩]).1 = .error emptyIndexError := by
  have h := searchWithFilter_spec (fun _ => .ok [1])
    (⟨10, 0, fun _ => "", fun _ => ()⟩ : SearchConfig Nat Unit) "q" (fun _ => false) ()
    (noOverride Nat Unit) [⟨7, [1], none⟩]
  exact ⟨h.1, (h.2.2 rfl).1⟩

/-- C2 counterexample: with `replace = true` and a failing `embedBatch`, the
prior index state (one stored item) is NOT restored — the index comes out
empty, because `this.indexedItems = []` runs before the embedding call and the
error path never rolls it back.  (No items are added, but the state differs
from the pre-call state.) -/
theorem index_replace_failure_cex :
    index (fun _ => .error ⟨.EMBEDDING_FAILED, "inference failed", none⟩)
        (⟨10, 0, fun _ => "t", fun _ => ()⟩ : SearchConfig Nat Unit) [5] true [⟨7, [1], none⟩] =
      (.error ⟨.EMBEDDING_FAILED, "inference failed", none⟩,
        ([] : List (IndexedItem Nat Unit))) ∧
    ([] : List (IndexedItem Nat Unit)) ≠ [⟨7, [1], none⟩] :=
  ⟨rfl, by simp⟩

/-- C2 (amended): when `embedBatch` fails, no items are added and the error
propagates; with `replace = false` the index state is exactly the pre-call
state, but with `replace = true` the index has already been cleared, so the
failure leaves it empty rather than restoring the prior contents. -/
theorem index_batch_failure {T M : Type}
    (embedBatch : List String → Except SemanticError (List (List ℚ)))
    (cfg : SearchConfig T M) (items : List T) (st : List (IndexedItem T M))
    (e : SemanticError) (hne : items ≠ [])
    (herr : embedBatch (items.map cfg.textExtractor) = .error e) :
    index embedBatch cfg items false st = (.error e, st) ∧
    index embedBatch cfg items true st = (.error e, []) := by
  have h0 : items.length ≠ 0 := by simpa [List.length_eq_zero] using hne
  constructor <;> simp [index, h0, herr]

/-- C2 witness: the `replace = false` half at a concrete failing batch. -/
theorem index_batch_failure_witness :
    index (fun _ => .error ⟨.EMBEDDING_FAILED, "inference failed", none⟩)
        (⟨10, 0, fun _ => "t", fun _ => ()⟩ : SearchConfig Nat Unit) [5] false [⟨7, [1], none⟩] =
      (.error ⟨.EMBEDDING_FAILED, "inference failed", none⟩, [⟨7, [1], none⟩]) :=
  (index_batch_failure (fun _ => .error ⟨.EMBEDDING_FAILED, "inference failed", none⟩)
    (⟨10, 0, fun _ => "t", fun _ => ()⟩ : SearchConfig Nat Unit) [5] [⟨7, [1], none⟩]
    ⟨.EMBEDDING_FAILED, "inference failed", none⟩ (by simp) rfl).1

theorem getD_writeEmbedding (h : Heap) (r : Nat) (e : List ℚ) (hr : r < h.length) :
    (writeEmbedding h r e).getD r default = { h.getD r default with embedding := e } := by
  rw [writeEmbedding, List.getD_eq_getElem?_getD, List.getElem?_set_self hr, Option.getD_some]

/-- C1 counterexample: the index holds the record reference `0` with embedding
`[1]`; `exportIndex` returns the same reference, and after the caller writes
`[2]` through it the index's stored embeddings have changed from `[[1]]` to
`[[2]]` — the export is a shallow, not a deep, copy. -/
theorem exportIndex_not_deep_copy_cex :
    storedEmbeddings [⟨[1], "m"⟩] [0] = [[1]] ∧
    exportIndex [0] = [0] ∧
    storedEmbeddings (writeEmbedding [⟨[1], "m"⟩] 0 [2]) [0] = [[2]] ∧
    ([[2]] : List (List ℚ)) ≠ [[1]] :=
  ⟨rfl, rfl, rfl, by decide⟩

/-- C1 (amended): `exportIndex` and `importIndex` copy only the sequence (the
array spread yields a new array with the very same record references), so
sequence-level mutation cannot leak, but mutating the embedding of a record
reachable from the exported (or imported) sequence does change the index's
stored items. -/
theorem exportImport_record_aliasing (refs : List Nat) (h : Heap) (r : Nat) (e : List ℚ)
    (hmem : r ∈ exportIndex refs) (hr : r < h.length)
    (hne : (h.getD r default).embedding ≠ e) :
    exportIndex refs = refs ∧ importIndex refs = refs ∧
    storedEmbeddings (writeEmbedding h r e) refs ≠ storedEmbeddings h refs := by
  refine ⟨rfl, rfl, fun heq => ?_⟩
  rw [storedEmbeddings, storedEmbeddings, List.map_eq_map_iff] at heq
  have h1 := heq r hmem
  rw [getD_writeEmbedding h r e hr] at h1
  have h2 : e = (h.getD r default).embedding := by simpa using h1
  exact hne h2.symm

/-- C1 witness for the amended claim at the counterexample's concrete input. -/
theorem exportImport_record_aliasing_witness :
    exportIndex [0] = [0] ∧ importIndex [0] = [0] ∧
    storedEmbeddings (writeEmbedding [⟨[1], "m"⟩] 0 [2]) [0] ≠
      storedEmbeddings [⟨[1], "m"⟩] [0] :=
  exportImport_record_aliasing [0] [⟨[1], "m"⟩] 0 [2] (by decide) (by decide) (by decide)

end Toolkit
